import Mathlib

/-!
Verification of the `flask_smores.py` library and the `resources/store.py`
resource module.

Each Python construct the claims depend on is embedded as an executable Lean
definition:

* `CaseInsensitiveDict` — the case-insensitive mapping (flask_smores.py,
  lines 68-140).  Its `_store` `OrderedDict` is modelled as an insertion-ordered
  association list of `(lowered key, (original key, value))` entries; setting an
  existing key updates the entry in place, a new key is appended, matching
  `OrderedDict.__setitem__`.
* the request-merging decorator `use_input_schema` / `decorated_view`
  (lines 180-253), over an abstract value type.
* `make_schema_dict` (lines 143-170) over a schema environment that permits
  cyclic nested-schema references.
* `Smores.init_app` / `cache_api_docs` (lines 23-57).
* the `Store` / `StoreList` handlers of `resources/store.py`, over a session
  model with explicit pending state.
-/

set_option autoImplicit false

namespace FlaskSmores

universe u

variable {α : Type u}

/-- Python's `str.lower`, mapped over the characters of the string. -/
def pyLower (s : String) : String :=
  String.mk (s.data.map Char.toLower)

/-- `CaseInsensitiveDict` (flask_smores.py lines 68-140).  The backing
`OrderedDict` `self._store` maps the lowercased key to the pair
`(original key, value)`. -/
structure CaseInsensitiveDict (α : Type u) where
  _store : List (String × String × α)
deriving Repr, DecidableEq

namespace CaseInsensitiveDict

/-- A `CaseInsensitiveDict()` built with no data. -/
def empty : CaseInsensitiveDict α := ⟨[]⟩

/-- `OrderedDict.__setitem__`: replace the entry in place when the (lowered)
key is present, append it otherwise. -/
def storeSet (l : List (String × String × α)) (lk k : String) (v : α) :
    List (String × String × α) :=
  match l with
  | [] => [(lk, k, v)]
  | e :: rest => if e.1 = lk then (lk, k, v) :: rest else e :: storeSet rest lk k v

/-- `__setitem__`: `self._store[key.lower()] = (key, value)`. -/
def setItem (d : CaseInsensitiveDict α) (k : String) (v : α) : CaseInsensitiveDict α :=
  ⟨storeSet d._store (pyLower k) k v⟩

/-- Find the `(original key, value)` entry stored for a lowered key. -/
def lowerLookup (l : List (String × String × α)) (lk : String) : Option (String × α) :=
  match l with
  | [] => none
  | e :: rest => if e.1 = lk then some e.2 else lowerLookup rest lk

/-- `__getitem__`: `self._store[key.lower()][1]`, `none` standing for the
`KeyError` a missing key raises. -/
def getItem (d : CaseInsensitiveDict α) (k : String) : Option α :=
  (lowerLookup d._store (pyLower k)).map (·.2)

/-- `__contains__` (derived by `MutableMapping` from `__getitem__`). -/
def contains (d : CaseInsensitiveDict α) (k : String) : Bool :=
  (lowerLookup d._store (pyLower k)).isSome

/-- `__delitem__`: `del self._store[key.lower()]`; `none` stands for the
`KeyError` raised when the key is absent. -/
def delItem (d : CaseInsensitiveDict α) (k : String) : Option (CaseInsensitiveDict α) :=
  if contains d k then some ⟨d._store.filter (fun e => e.1 != pyLower k)⟩ else none

/-- `MutableMapping.update` over a sequence of key/value pairs: assigns each
pair in order through `__setitem__`. -/
def update (d : CaseInsensitiveDict α) (pairs : List (String × α)) : CaseInsensitiveDict α :=
  pairs.foldl (fun d kv => d.setItem kv.1 kv.2) d

/-- `__init__(data)`: start from an empty `OrderedDict` and `update` with the
data. -/
def ofPairs (pairs : List (String × α)) : CaseInsensitiveDict α :=
  update empty pairs

/-- `copy`: `CaseInsensitiveDict(self._store.values())`, i.e. rebuild from the
stored `(original key, value)` pairs. -/
def copy (d : CaseInsensitiveDict α) : CaseInsensitiveDict α :=
  ofPairs (d._store.map (fun e => (e.2.1, e.2.2)))

/-- `__iter__`: the original-cased keys, in storage order. -/
def iterKeys (d : CaseInsensitiveDict α) : List String :=
  d._store.map (fun e => e.2.1)

/-- `__len__`: `len(self._store)`. -/
def size (d : CaseInsensitiveDict α) : Nat :=
  d._store.length

/-- The lowered keys of the backing store. -/
def lowerKeys (d : CaseInsensitiveDict α) : List String :=
  d._store.map (·.1)

/-- The structural invariant of the backing store: no two entries share a
lowercased key, and every entry is stored under the lowercase of its
original-cased key. -/
def Inv (d : CaseInsensitiveDict α) : Prop :=
  d.lowerKeys.Nodup ∧ ∀ e ∈ d._store, e.1 = pyLower e.2.1

@[simp] theorem lowerKeys_empty : (empty : CaseInsensitiveDict α).lowerKeys = [] := rfl

theorem Inv_empty : Inv (empty : CaseInsensitiveDict α) := by
  constructor
  · simp [lowerKeys, empty]
  · intro e he; simp [empty] at he

theorem lowerLookup_storeSet_self (l : List (String × String × α)) (lk k : String) (v : α) :
    lowerLookup (storeSet l lk k v) lk = some (k, v) := by
  induction l with
  | nil => simp [storeSet, lowerLookup]
  | cons e rest ih =>
      by_cases h : e.1 = lk
      · simp [storeSet, h, lowerLookup]
      · simp [storeSet, h, lowerLookup, ih]

theorem lowerLookup_storeSet_other (l : List (String × String × α)) (lk k : String) (v : α)
    (lk' : String) (h : lk' ≠ lk) :
    lowerLookup (storeSet l lk k v) lk' = lowerLookup l lk' := by
  induction l with
  | nil => simp [storeSet, lowerLookup, Ne.symm h]
  | cons e rest ih =>
      by_cases he : e.1 = lk
      · subst he
        simp [storeSet, lowerLookup, Ne.symm h]
      · simp only [storeSet, if_neg he]
        by_cases he' : e.1 = lk'
        · simp [lowerLookup, he']
        · simp [lowerLookup, he', ih]

/-- `getItem` after `setItem`: the freshly set key (up to case) is found, other
keys are untouched. -/
theorem getItem_setItem (d : CaseInsensitiveDict α) (k : String) (v : α) (k' : String) :
    getItem (setItem d k v) k' =
      if pyLower k' = pyLower k then some v else getItem d k' := by
  by_cases h : pyLower k' = pyLower k
  · simp [getItem, setItem, h, lowerLookup_storeSet_self]
  · simp [getItem, setItem, h, lowerLookup_storeSet_other _ _ _ _ _ h]

theorem lowerKeys_storeSet (l : List (String × String × α)) (lk k : String) (v : α) :
    (storeSet l lk k v).map (·.1) =
      if lk ∈ l.map (·.1) then l.map (·.1) else l.map (·.1) ++ [lk] := by
  induction l with
  | nil => simp [storeSet]
  | cons e rest ih =>
      by_cases h : e.1 = lk
      · simp [storeSet, h]
      · simp only [storeSet, if_neg h, List.map_cons, ih]
        by_cases hm : lk ∈ rest.map (·.1)
        · simp [hm, Ne.symm h]
        · simp [hm, Ne.symm h]

theorem mem_storeSet (l : List (String × String × α)) (lk k : String) (v : α)
    (e : String × String × α) (he : e ∈ storeSet l lk k v) :
    e = (lk, k, v) ∨ e ∈ l := by
  induction l with
  | nil => simp [storeSet] at he; simp [he]
  | cons f rest ih =>
      by_cases h : f.1 = lk
      · simp [storeSet, h] at he
        rcases he with he | he
        · exact Or.inl he
        · exact Or.inr (List.mem_cons_of_mem _ he)
      · simp only [storeSet, if_neg h, List.mem_cons] at he
        rcases he with he | he
        · exact Or.inr (by simp [he])
        · rcases ih he with h' | h'
          · exact Or.inl h'
          · exact Or.inr (List.mem_cons_of_mem _ h')

theorem Inv_setItem (d : CaseInsensitiveDict α) (k : String) (v : α) (hd : Inv d) :
    Inv (setItem d k v) := by
  obtain ⟨hnd, hlow⟩ := hd
  constructor
  · show ((storeSet d._store (pyLower k) k v).map (·.1)).Nodup
    rw [lowerKeys_storeSet]
    by_cases hm : pyLower k ∈ d._store.map (·.1)
    · simpa [hm] using hnd
    · simp only [if_neg hm]
      exact List.Nodup.append hnd (List.nodup_singleton _)
        (by simpa [List.disjoint_singleton] using hm)
  · intro e he
    rcases mem_storeSet _ _ _ _ _ he with h | h
    · simp [h]
    · exact hlow e h

theorem Inv_delItem (d : CaseInsensitiveDict α) (k : String) (d' : CaseInsensitiveDict α)
    (hd : Inv d) (h : delItem d k = some d') : Inv d' := by
  obtain ⟨hnd, hlow⟩ := hd
  by_cases hc : contains d k = true
  · rw [delItem, if_pos hc, Option.some.injEq] at h
    subst h
    constructor
    · show ((d._store.filter (fun e => e.1 != pyLower k)).map (fun e => e.1)).Nodup
      exact List.Nodup.sublist ((List.filter_sublist d._store).map (fun e => e.1)) hnd
    · intro e he
      exact hlow e (List.mem_of_mem_filter he)
  · rw [delItem, if_neg hc] at h
    exact absurd h (by simp)

theorem Inv_update (d : CaseInsensitiveDict α) (pairs : List (String × α)) (hd : Inv d) :
    Inv (update d pairs) := by
  induction pairs generalizing d with
  | nil => simpa [update] using hd
  | cons p rest ih =>
      simpa [update] using ih (setItem d p.1 p.2) (Inv_setItem d p.1 p.2 hd)

theorem Inv_ofPairs (pairs : List (String × α)) : Inv (ofPairs pairs) :=
  Inv_update empty pairs Inv_empty

theorem Inv_copy (d : CaseInsensitiveDict α) : Inv (copy d) :=
  Inv_ofPairs _

theorem size_setItem (d : CaseInsensitiveDict α) (k : String) (v : α) :
    size (setItem d k v) =
      if pyLower k ∈ d.lowerKeys then size d else size d + 1 := by
  show (storeSet d._store (pyLower k) k v).length = _
  have h := lowerKeys_storeSet d._store (pyLower k) k v
  have hlen : (storeSet d._store (pyLower k) k v).length =
      ((storeSet d._store (pyLower k) k v).map (·.1)).length := by
    simp
  rw [hlen, h]
  by_cases hm : pyLower k ∈ d._store.map (·.1)
  · simp [hm, size, lowerKeys]
  · simp [hm, size, lowerKeys]

theorem lowerKeys_toFinset_setItem (d : CaseInsensitiveDict α) (k : String) (v : α) :
    (lowerKeys (setItem d k v)).toFinset = insert (pyLower k) d.lowerKeys.toFinset := by
  show ((storeSet d._store (pyLower k) k v).map (·.1)).toFinset = _
  rw [lowerKeys_storeSet]
  by_cases hm : pyLower k ∈ d._store.map (·.1)
  · simp only [if_pos hm, lowerKeys]
    have : pyLower k ∈ (d._store.map (·.1)).toFinset := by simpa using hm
    rw [Finset.insert_eq_self.mpr this]
  · simp [hm, lowerKeys, Finset.insert_eq, Finset.union_comm]

theorem lowerKeys_toFinset_update (d : CaseInsensitiveDict α) (pairs : List (String × α)) :
    (lowerKeys (update d pairs)).toFinset =
      d.lowerKeys.toFinset ∪ (pairs.map (fun p => pyLower p.1)).toFinset := by
  induction pairs generalizing d with
  | nil => simp [update]
  | cons p rest ih =>
      show (lowerKeys (update (setItem d p.1 p.2) rest)).toFinset = _
      rw [ih, lowerKeys_toFinset_setItem]
      simp [Finset.insert_union, Finset.union_insert]

theorem size_eq_card_lowerKeys (d : CaseInsensitiveDict α) (hd : Inv d) :
    size d = d.lowerKeys.toFinset.card := by
  rw [List.toFinset_card_of_nodup hd.1]
  simp [size, lowerKeys]

/-- `len` of a dict built from pairs counts the case-insensitively distinct
keys among the pairs. -/
theorem size_ofPairs (pairs : List (String × α)) :
    size (ofPairs pairs) = (pairs.map (fun p => pyLower p.1)).toFinset.card := by
  rw [size_eq_card_lowerKeys _ (Inv_ofPairs pairs)]
  show (lowerKeys (update empty pairs)).toFinset.card = _
  rw [lowerKeys_toFinset_update]
  simp

theorem mem_iterKeys_setItem (d : CaseInsensitiveDict α) (k : String) (v : α) :
    k ∈ iterKeys (setItem d k v) := by
  show k ∈ (storeSet d._store (pyLower k) k v).map (fun e => e.2.1)
  induction d._store with
  | nil => simp [storeSet]
  | cons e rest ih =>
      by_cases h : e.1 = pyLower k
      · simp [storeSet, h]
      · simp only [storeSet, if_neg h, List.map_cons, List.mem_cons]
        exact Or.inr ih

/-- When the backing store has no duplicate lowered keys, the entry that
`storeSet` leaves under the written lowered key is exactly the new pair. -/
theorem storeSet_entry_unique (l : List (String × String × α)) (lk k : String) (v : α)
    (hnd : (l.map (·.1)).Nodup) :
    ∀ f ∈ storeSet l lk k v, f.1 = lk → f.2 = (k, v) := by
  induction l with
  | nil =>
      intro f hf _
      simp [storeSet] at hf
      simp [hf]
  | cons g rest ih =>
      intro f hf hf1
      by_cases hg : g.1 = lk
      · simp only [storeSet, if_pos hg, List.mem_cons] at hf
        rcases hf with hf | hf
        · simp [hf]
        · exfalso
          have hmem : f.1 ∈ rest.map (·.1) := List.mem_map.mpr ⟨f, hf, rfl⟩
          rw [hf1, ← hg] at hmem
          exact (List.nodup_cons.mp (by simpa using hnd)).1 hmem
      · simp only [storeSet, if_neg hg, List.mem_cons] at hf
        rcases hf with hf | hf
        · rw [hf] at hf1; exact absurd hf1 hg
        · exact ih (List.nodup_cons.mp (by simpa using hnd)).2 f hf hf1

/-- After `d[k] = v`, the only iterated key in the case class of `k` is `k`
itself: iteration remembers the case of the key as last set. -/
theorem iterKeys_setItem_last_case (d : CaseInsensitiveDict α) (k : String) (v : α)
    (hd : Inv d) (k'' : String) (hk : k'' ∈ iterKeys (setItem d k v))
    (hl : pyLower k'' = pyLower k) : k'' = k := by
  obtain ⟨hnd, hlow⟩ := hd
  simp only [iterKeys, setItem, List.mem_map] at hk
  obtain ⟨e, he, hek⟩ := hk
  rcases mem_storeSet _ _ _ _ _ he with h | h
  · rw [h] at hek
    exact hek.symm
  · have he1 : e.1 = pyLower k := by
      calc e.1 = pyLower e.2.1 := hlow e h
        _ = pyLower k'' := by rw [hek]
        _ = pyLower k := hl
    have hu := storeSet_entry_unique d._store (pyLower k) k v
      (by simpa [lowerKeys] using hnd) e he he1
    rw [← hek, hu]

theorem contains_eq_isSome_getItem (d : CaseInsensitiveDict α) (k : String) :
    contains d k = (getItem d k).isSome := by
  simp [contains, getItem]

theorem contains_iff_mem_lowerKeys (d : CaseInsensitiveDict α) (k : String) :
    contains d k = true ↔ pyLower k ∈ d.lowerKeys := by
  show (lowerLookup d._store (pyLower k)).isSome = true ↔ pyLower k ∈ d._store.map (·.1)
  induction d._store with
  | nil => simp [lowerLookup]
  | cons e rest ih =>
      by_cases h : e.1 = pyLower k
      · simp [lowerLookup, h]
      · simp [lowerLookup, h, ih, Ne.symm h]

end CaseInsensitiveDict

open CaseInsensitiveDict in
/-- C6: the `CaseInsensitiveDict` is case-insensitive on lookup: after
`d[k] = v`, reading `d[k']` returns `v` and `k' in d` holds for every `k'`
with `k'.lower() == k.lower()`, while iteration yields the case of the key as
last set. -/
theorem C6_caseInsensitiveDict_lookup (d : CaseInsensitiveDict α) (k : String) (v : α)
    (k' : String) (hk : pyLower k' = pyLower k) (hinv : Inv d) :
    getItem (setItem d k v) k' = some v ∧
    contains (setItem d k v) k' = true ∧
    k ∈ iterKeys (setItem d k v) ∧
    (∀ k'' ∈ iterKeys (setItem d k v), pyLower k'' = pyLower k → k'' = k) := by
  refine ⟨?_, ?_, mem_iterKeys_setItem d k v, ?_⟩
  · rw [getItem_setItem, if_pos hk]
  · rw [contains_eq_isSome_getItem, getItem_setItem, if_pos hk]
    rfl
  · intro k'' hmem hlow
    exact iterKeys_setItem_last_case d k v hinv k'' hmem hlow

open CaseInsensitiveDict in
theorem C6_caseInsensitiveDict_lookup_witness :
    getItem (setItem (empty : CaseInsensitiveDict String) "Accept" "application/json")
        "aCCEPT" = some "application/json" ∧
    contains (setItem (empty : CaseInsensitiveDict String) "Accept" "application/json")
        "aCCEPT" = true ∧
    "Accept" ∈ iterKeys (setItem (empty : CaseInsensitiveDict String) "Accept"
        "application/json") := by
  have h := C6_caseInsensitiveDict_lookup (empty : CaseInsensitiveDict String)
    "Accept" "application/json" "aCCEPT" (by decide) Inv_empty
  exact ⟨h.1, h.2.1, h.2.2.1⟩

open CaseInsensitiveDict in
/-- C9: the backing store never holds two entries whose keys agree after
lowercasing; this invariant holds initially and is preserved by `__init__`,
`__setitem__`, `__delitem__`, `update` and `copy`; setting a key that is
already present up to case keeps the length unchanged and replaces the stored
value; and the length of a dict built from pairs counts the case-insensitively
distinct keys. -/
theorem C9_caseInsensitiveDict_invariant :
    Inv (empty : CaseInsensitiveDict α) ∧
    (∀ pairs : List (String × α), Inv (ofPairs pairs)) ∧
    (∀ (d : CaseInsensitiveDict α) k v, Inv d → Inv (setItem d k v)) ∧
    (∀ (d : CaseInsensitiveDict α) k d', Inv d → delItem d k = some d' → Inv d') ∧
    (∀ (d : CaseInsensitiveDict α) pairs, Inv d → Inv (update d pairs)) ∧
    (∀ d : CaseInsensitiveDict α, Inv (copy d)) ∧
    (∀ (d : CaseInsensitiveDict α) k v, contains d k = true →
      size (setItem d k v) = size d ∧ getItem (setItem d k v) k = some v) ∧
    (∀ pairs : List (String × α),
      size (ofPairs pairs) = (pairs.map (fun p => pyLower p.1)).toFinset.card) := by
  refine ⟨Inv_empty, Inv_ofPairs, Inv_setItem, Inv_delItem, Inv_update, Inv_copy,
    ?_, size_ofPairs⟩
  intro d k v hc
  constructor
  · rw [size_setItem, if_pos ((contains_iff_mem_lowerKeys d k).mp hc)]
  · rw [getItem_setItem, if_pos rfl]

open CaseInsensitiveDict in
theorem C9_caseInsensitiveDict_invariant_witness :
    Inv (setItem (empty : CaseInsensitiveDict String) "Key" "1") ∧
    size (setItem (setItem (empty : CaseInsensitiveDict String) "Key" "1") "KEY" "2")
      = size (setItem (empty : CaseInsensitiveDict String) "Key" "1") ∧
    getItem (setItem (setItem (empty : CaseInsensitiveDict String) "Key" "1") "KEY" "2")
      "KEY" = some "2" ∧
    size (ofPairs [("Key", "1"), ("KEY", "2"), ("other", "3")]) = 2 := by
  have h := C9_caseInsensitiveDict_invariant (α := String)
  refine ⟨h.2.2.1 empty "Key" "1" h.1, ?_, ?_, (h.2.2.2.2.2.2.2 _).trans (by decide)⟩
  · exact (h.2.2.2.2.2.2.1 (setItem empty "Key" "1") "KEY" "2" (by decide)).1
  · exact (h.2.2.2.2.2.2.1 (setItem empty "Key" "1") "KEY" "2" (by decide)).2

/-! ## The `use_input_schema` decorator (flask_smores.py lines 180-253)

The request bodies, header/cookie/query/path multidicts and schema objects are
modelled over an abstract value type `V`, an abstract loaded-object type `O`, a
view-result type `R` and a route-documentation type `D`. -/

section Decorator

variable {V O R D : Type}

/-- The result of `request.get_json(force=True)`: either a JSON object or any
other JSON value.  `decorated_view` wraps a non-dict value as
`{'json_body': value}`. -/
inductive PyJson (V : Type) where
  | dict (entries : List (String × V))
  | other (v : V)
deriving Repr, DecidableEq

/-- `if type(json) != dict: json = {'json_body': json}` (lines 201-204). -/
def jsonAsDict : PyJson V → List (String × V)
  | .dict l => l
  | .other v => [("json_body", v)]

/-- The request data the decorator reads.  Each multi-source location is an
association list standing for the corresponding Flask mapping; `body` is the
parsed JSON payload. -/
structure HttpRequest (V : Type) where
  method : String
  headers : List (String × V)
  cookies : List (String × V)
  args : List (String × V)
  view_args : List (String × V)
  body : PyJson V
deriving Repr, DecidableEq

/-- Python `dict.get` on an association list: when a key was assigned several
times the later assignment wins. -/
def dictGet : List (String × V) → String → Option V
  | [], _ => none
  | e :: rest, k =>
      match dictGet rest k with
      | some v => some v
      | none => if e.1 = k then some e.2 else none

/-- Werkzeug `Headers.get`: header lookup matches names case-insensitively
(first matching header). -/
def headersGet (l : List (String × V)) (k : String) : Option V :=
  (l.find? (fun e => pyLower e.1 == pyLower k)).map (·.2)

/-- `getattr(request, REQUEST_ATTR_MAP[found_in]).get(field_name)`
(lines 60-65 and 224): `path ↦ view_args`, `query ↦ args`,
`header ↦ headers`, `cookie ↦ cookies`. -/
def requestAttrGet (req : HttpRequest V) (found_in field_name : String) : Option V :=
  if found_in = "path" then dictGet req.view_args field_name
  else if found_in = "query" then dictGet req.args field_name
  else if found_in = "header" then headersGet req.headers field_name
  else if found_in = "cookie" then dictGet req.cookies field_name
  else none

/-- The schema object the decorator closes over: its field list (field name
paired with the `found_in` metadata entry, when any), and its `load` /
`validate` behaviour.  `load` returns `none` when marshmallow raises
`ValidationError`; `validate` returns the per-field error messages. -/
structure InputSchema (V O : Type) where
  fields : List (String × Option String)
  load : CaseInsensitiveDict V → Option O
  validate : CaseInsensitiveDict V → List (String × List String)

/-- The `found_ins` dict built by `use_input_schema` (lines 187-190): fields
whose `found_in` metadata is one of the five recognised locations, in field
order. -/
def found_ins (s : InputSchema V O) : List (String × String) :=
  s.fields.filterMap (fun e =>
    match e.2 with
    | some fi => if fi ∈ ["path", "query", "header", "cookie", "json"] then some (e.1, fi) else none
    | none => none)

/-- The JSON contribution to the merged data (lines 199-206): the body parsed
as a dict for POST/PUT/PATCH, the empty dict for every other method. -/
def jsonData (req : HttpRequest V) : List (String × V) :=
  if req.method ∈ ["POST", "PUT", "PATCH"] then jsonAsDict req.body else []

/-- One iteration of the `found_ins` re-fetch loop (lines 213-228): re-read
the field from its declared location and overwrite the merged value when the
location holds it. -/
def applyFoundIn (req : HttpRequest V) (json : List (String × V))
    (data : CaseInsensitiveDict V) (e : String × String) : CaseInsensitiveDict V :=
  if e.2 = "json" then
    match dictGet json e.1 with
    | some v => CaseInsensitiveDict.setItem data e.1 v
    | none => data
  else
    match requestAttrGet req e.2 e.1 with
    | some v => CaseInsensitiveDict.setItem data e.1 v
    | none => data

/-- The merged multi-source request data (lines 194-228): headers, cookies,
query args, path args and the JSON body merged in that order into one
`CaseInsensitiveDict`, then the `found_ins` re-fetch loop. -/
def mergedData (s : InputSchema V O) (req : HttpRequest V) : CaseInsensitiveDict V :=
  let data := CaseInsensitiveDict.empty
  let data := data.update req.headers
  let data := data.update req.cookies
  let data := data.update req.args
  let data := data.update req.view_args
  let json := jsonData req
  let data := data.update json
  (found_ins s).foldl (applyFoundIn req json) data

/-- The JSON body of the 400 response (lines 236-241): the `errors` member
and, when the route is documented, its docs. -/
structure RejectionBody (D : Type) where
  errors : List (String × List String)
  route_docs : Option D
deriving Repr, DecidableEq

/-- The wrapped view function: whether `'input_obj' in inspect.getargspec(func).args`,
and its behaviour — `call (some obj)` is the call with the `input_obj=data`
keyword argument, `call none` the call with the original arguments unchanged. -/
structure PyViewFunc (O R : Type) where
  declares_input_obj : Bool
  call : Option O → R

/-- What `decorated_view` returns: a 400 rejection without calling the view,
or the view's result together with the validated object stored as
`request.input_obj` and whether it was passed as the `input_obj` keyword. -/
inductive ViewOutcome (O R D : Type) where
  | rejected (body : RejectionBody D) (status : Nat)
  | invoked (input_obj : O) (passed_input_obj : Bool) (result : R)
deriving Repr, DecidableEq

/-- `decorated_view` (lines 193-249): merge the request data, validate it with
the schema, reject invalid data with a 400 error body, otherwise store the
loaded data as `request.input_obj` and call the view (with the `input_obj`
keyword exactly when the view declares that parameter).  `route_docs` is the
`current_app._api_docs` entry for the request's rule and method. -/
def decorated_view (s : InputSchema V O) (func : PyViewFunc O R) (route_docs : Option D)
    (req : HttpRequest V) : ViewOutcome O R D :=
  let data := mergedData s req
  match s.load data with
  | none => .rejected ⟨s.validate data, route_docs⟩ 400
  | some obj =>
      if func.declares_input_obj then .invoked obj true (func.call (some obj))
      else .invoked obj false (func.call none)

end Decorator

section DecoratorLemmas

variable {V O R D : Type}

open CaseInsensitiveDict

/-- Case-insensitive "last assignment wins" lookup in a pair list; the value a
chain of `update` calls leaves under a key. -/
def ciLast : List (String × V) → String → Option V
  | [], _ => none
  | e :: rest, k =>
      match ciLast rest k with
      | some v => some v
      | none => if pyLower e.1 = pyLower k then some e.2 else none

/-- Return the first option when it is `some`, the fallback otherwise. -/
def firstSome (o fallback : Option V) : Option V :=
  match o with
  | some v => some v
  | none => fallback

@[simp] theorem firstSome_some (v : V) (f : Option V) : firstSome (some v) f = some v := rfl

@[simp] theorem firstSome_none (f : Option V) : firstSome none f = f := rfl

@[simp] theorem firstSome_right_none (o : Option V) : firstSome o none = o := by
  cases o <;> rfl

theorem ciLast_cons (e : String × V) (rest : List (String × V)) (k : String) :
    ciLast (e :: rest) k =
      firstSome (ciLast rest k) (if pyLower e.1 = pyLower k then some e.2 else none) := by
  rw [ciLast]
  cases ciLast rest k <;> rfl

@[simp] theorem getItem_empty (k : String) :
    getItem (empty : CaseInsensitiveDict V) k = none := rfl

theorem getItem_update (d : CaseInsensitiveDict V) (l : List (String × V)) (k : String) :
    getItem (update d l) k = firstSome (ciLast l k) (getItem d k) := by
  induction l generalizing d with
  | nil => simp [update, ciLast]
  | cons e rest ih =>
      show getItem (update (setItem d e.1 e.2) rest) k = _
      rw [ih, ciLast_cons, getItem_setItem]
      cases h : ciLast rest k with
      | some v => rfl
      | none =>
          simp only [firstSome_none]
          by_cases hp : pyLower k = pyLower e.1
          · rw [if_pos hp, if_pos hp.symm]
            rfl
          · rw [if_neg hp, if_neg (fun h' => hp h'.symm)]
            rfl

theorem ciLast_append (l₁ l₂ : List (String × V)) (k : String) :
    ciLast (l₁ ++ l₂) k = firstSome (ciLast l₂ k) (ciLast l₁ k) := by
  induction l₁ with
  | nil => simp [ciLast]
  | cons e rest ih =>
      rw [List.cons_append, ciLast_cons, ih, ciLast_cons]
      cases ciLast l₂ k <;> rfl

theorem getItem_applyFoundIn (req : HttpRequest V) (json : List (String × V))
    (data : CaseInsensitiveDict V) (e : String × String) (k : String)
    (h : pyLower e.1 ≠ pyLower k) :
    getItem (applyFoundIn req json data e) k = getItem data k := by
  unfold applyFoundIn
  by_cases hj : e.2 = "json"
  · rw [if_pos hj]
    cases dictGet json e.1 with
    | none => rfl
    | some v => rw [getItem_setItem, if_neg (fun h' => h h'.symm)]
  · rw [if_neg hj]
    cases requestAttrGet req e.2 e.1 with
    | none => rfl
    | some v => rw [getItem_setItem, if_neg (fun h' => h h'.symm)]

theorem getItem_foldl_applyFoundIn (req : HttpRequest V) (json : List (String × V))
    (fis : List (String × String)) (data : CaseInsensitiveDict V) (k : String)
    (h : ∀ e ∈ fis, pyLower e.1 ≠ pyLower k) :
    getItem (fis.foldl (applyFoundIn req json) data) k = getItem data k := by
  induction fis generalizing data with
  | nil => rfl
  | cons e rest ih =>
      rw [List.foldl_cons, ih _ (fun e' he' => h e' (List.mem_cons_of_mem _ he')),
        getItem_applyFoundIn _ _ _ _ _ (h e (List.mem_cons_self _ _))]

end DecoratorLemmas

section DecoratorClaims

variable {V O R D : Type}

open CaseInsensitiveDict

/-- C1: when the merged multi-source data fails schema validation,
`decorated_view` returns a 400 response whose body carries the per-field
errors under `errors`, and it does not invoke the wrapped view function. -/
theorem C1_invalid_input_rejected (s : InputSchema V O) (func : PyViewFunc O R)
    (route_docs : Option D) (req : HttpRequest V)
    (h : s.load (mergedData s req) = none) :
    decorated_view s func route_docs req =
      ViewOutcome.rejected ⟨s.validate (mergedData s req), route_docs⟩ 400 ∧
    ∀ (o : O) (b : Bool) (r : R),
      decorated_view s func route_docs req ≠ ViewOutcome.invoked o b r := by
  have h1 : decorated_view s func route_docs req =
      ViewOutcome.rejected ⟨s.validate (mergedData s req), route_docs⟩ 400 := by
    simp only [decorated_view]
    rw [h]
  exact ⟨h1, fun o b r hc => by rw [h1] at hc; cases hc⟩

def c1Schema : InputSchema String String :=
  { fields := [("name", none)]
    load := fun _ => none
    validate := fun _ => [("name", ["Missing data for required field."])] }

def c1Func : PyViewFunc String String :=
  { declares_input_obj := false, call := fun _ => "resp" }

def c1Req : HttpRequest String :=
  { method := "GET", headers := [], cookies := [], args := [], view_args := []
    body := PyJson.dict [] }

theorem C1_invalid_input_rejected_witness :
    decorated_view c1Schema c1Func (none : Option String) c1Req =
      ViewOutcome.rejected ⟨[("name", ["Missing data for required field."])], none⟩ 400 ∧
    decorated_view c1Schema c1Func (none : Option String) c1Req ≠
      ViewOutcome.invoked "anything" false "resp" := by
  have h := C1_invalid_input_rejected c1Schema c1Func (none : Option String) c1Req rfl
  exact ⟨h.1, h.2 "anything" false "resp"⟩

/-- C7: when the merged data passes schema validation, `decorated_view`
invokes the wrapped view: the loaded data is the stored `request.input_obj`,
and it is passed as the `input_obj` keyword argument exactly when the view
declares that parameter (otherwise the view is called with its original
arguments). -/
theorem C7_valid_input_invokes_view (s : InputSchema V O) (func : PyViewFunc O R)
    (route_docs : Option D) (req : HttpRequest V) (obj : O)
    (h : s.load (mergedData s req) = some obj) :
    decorated_view s func route_docs req =
      ViewOutcome.invoked obj func.declares_input_obj
        (func.call (if func.declares_input_obj then some obj else none)) := by
  simp only [decorated_view]
  rw [h]
  by_cases hd : func.declares_input_obj = true
  · simp [hd]
  · simp [hd]

def c7Schema : InputSchema String String :=
  { fields := [("name", none)]
    load := fun _ => some "OBJ"
    validate := fun _ => [] }

def c7Func : PyViewFunc String String :=
  { declares_input_obj := true, call := fun o => o.getD "no_input_obj" }

theorem C7_valid_input_invokes_view_witness :
    decorated_view c7Schema c7Func (none : Option String) c1Req =
      ViewOutcome.invoked "OBJ" true "OBJ" := by
  have h := C7_valid_input_invokes_view c7Schema c7Func (none : Option String) c1Req "OBJ" rfl
  exact h

/-- C8: for a method other than POST/PUT/PATCH the JSON contribution is the
empty mapping, so two requests that differ only in their body merge to the
same data and get the same outcome from `decorated_view`. -/
theorem C8_body_ignored_for_bodyless_methods (s : InputSchema V O) (func : PyViewFunc O R)
    (route_docs : Option D) (req : HttpRequest V) (b₁ b₂ : PyJson V)
    (h : req.method ∉ ["POST", "PUT", "PATCH"]) :
    jsonData { req with body := b₁ } = ([] : List (String × V)) ∧
    mergedData s { req with body := b₁ } = mergedData s { req with body := b₂ } ∧
    decorated_view s func route_docs { req with body := b₁ } =
      decorated_view s func route_docs { req with body := b₂ } := by
  have hj : ∀ b : PyJson V, jsonData { req with body := b } = [] := by
    intro b
    simp [jsonData, h]
  have ha : ∀ (b : PyJson V) (json : List (String × V)),
      applyFoundIn { req with body := b } json = applyFoundIn req json := fun _ _ => rfl
  have hm : mergedData s { req with body := b₁ } = mergedData s { req with body := b₂ } := by
    simp only [mergedData, hj, ha]
  exact ⟨hj b₁, hm, by simp only [decorated_view, hm]⟩

def c8Schema : InputSchema String String :=
  { fields := [("X", some "header")]
    load := fun _ => some "ok"
    validate := fun _ => [] }

def c8Func : PyViewFunc String String :=
  { declares_input_obj := false, call := fun _ => "resp" }

def c8Req : HttpRequest String :=
  { method := "GET", headers := [("X", "h")], cookies := [], args := [], view_args := []
    body := PyJson.dict [] }

theorem C8_body_ignored_for_bodyless_methods_witness :
    decorated_view c8Schema c8Func (none : Option String)
        { c8Req with body := PyJson.other "evil" } =
      decorated_view c8Schema c8Func (none : Option String)
        { c8Req with body := PyJson.dict [("X", "2")] } :=
  (C8_body_ignored_for_bodyless_methods c8Schema c8Func (none : Option String) c8Req
    (PyJson.other "evil") (PyJson.dict [("X", "2")]) (by decide)).2.2

def c2xSchema : InputSchema String Unit :=
  { fields := [("x", some "cookie")]
    load := fun _ => none
    validate := fun _ => [] }

def c2xReq : HttpRequest String :=
  { method := "POST", headers := [], cookies := [("x", "from_cookie")], args := []
    view_args := [], body := PyJson.dict [("x", "from_json")] }

/-- C2 counterexample: for a schema field declared with `found_in: cookie`,
the re-fetch loop runs after the JSON body is merged, so the cookie value —
not the JSON body value — wins, contradicting the claimed unconditional
precedence of the JSON body. -/
theorem C2_counterexample_found_in_overrides_json :
    dictGet (jsonData c2xReq) "x" = some "from_json" ∧
    dictGet c2xReq.cookies "x" = some "from_cookie" ∧
    CaseInsensitiveDict.getItem (mergedData c2xSchema c2xReq) "x" = some "from_cookie" ∧
    CaseInsensitiveDict.getItem (mergedData c2xSchema c2xReq) "x" ≠ some "from_json" := by
  refine ⟨by decide, by decide, by decide, by decide⟩

/-- C2 (amended): the decorator merges all five request locations into one
`CaseInsensitiveDict`; for every key that no `found_in`-declared schema field
names, the last-merged location wins, the JSON body taking precedence over
path, then query, then cookies, then headers.  (Keys named by a `found_in`
declaration are re-fetched from the declared location afterwards, which then
wins.) -/
theorem C2_merge_last_wins_outside_found_ins (s : InputSchema V O) (req : HttpRequest V)
    (k : String) (h : ∀ e ∈ found_ins s, pyLower e.1 ≠ pyLower k) :
    CaseInsensitiveDict.getItem (mergedData s req) k =
      ciLast (req.headers ++ req.cookies ++ req.args ++ req.view_args ++ jsonData req) k := by
  simp only [mergedData]
  rw [getItem_foldl_applyFoundIn _ _ _ _ _ h]
  rw [getItem_update, getItem_update, getItem_update, getItem_update, getItem_update]
  rw [ciLast_append, ciLast_append, ciLast_append, ciLast_append]
  simp

def c2wSchema : InputSchema String Unit :=
  { fields := [("name", none)]
    load := fun _ => none
    validate := fun _ => [] }

def c2wReq : HttpRequest String :=
  { method := "POST", headers := [("Name", "from_header")]
    cookies := [("NAME", "from_cookie")], args := [], view_args := []
    body := PyJson.dict [("name", "from_json")] }

theorem C2_merge_last_wins_outside_found_ins_witness :
    CaseInsensitiveDict.getItem (mergedData c2wSchema c2wReq) "name" =
      ciLast (c2wReq.headers ++ c2wReq.cookies ++ c2wReq.args ++ c2wReq.view_args ++
        jsonData c2wReq) "name" ∧
    CaseInsensitiveDict.getItem (mergedData c2wSchema c2wReq) "name" = some "from_json" := by
  have h := C2_merge_last_wins_outside_found_ins c2wSchema c2wReq "name" (by decide)
  exact ⟨h, h.trans (by decide)⟩

end DecoratorClaims

/-! ## `make_schema_dict` (flask_smores.py lines 143-170)

Marshmallow schemas are modelled by a schema environment: a field's `nested`
attribute holds the name of another schema of the environment, so self-nested
and mutually nested schema definitions are expressible (the environment may be
cyclic).  A field dict with the fixed keys the code writes is modelled as a
record; the `metadata` entries the code copies in verbatim are carried in
their own component. -/

section SchemaDocs

variable {V : Type}

/-- A marshmallow field as `make_schema_dict` reads it: `data_key`, the class
name, the `nested` attribute (absent means the `AttributeError` branch),
`required`, `missing` / `default` (absent standing for the marshmallow
`missing` sentinel) and the metadata dict. -/
structure SmoresField (V : Type) where
  data_key : Option String
  field_type : String
  nested : Option String
  required : Bool
  missing_val : Option V
  default_val : Option V
  metadata : List (String × V)

/-- A marshmallow schema: its declared fields in order, and the optional
`smores_example` attribute read by `init_app`. -/
structure SmoresSchema (V : Type) where
  fields : List (String × SmoresField V)
  smores_example : Option V

/-- The (possibly cyclic) environment resolving nested-schema names. -/
def SchemaEnv (V : Type) := String → SmoresSchema V

/-- A produced `field_dict`: `type`, the optional nested `schema` entry, the
optional `required` / `missing` / `default` entries and the copied metadata. -/
inductive FieldDict (V : Type) where
  | mk (field_type : String)
       (schemaDoc : Option (List (String × FieldDict V)))
       (required : Option Bool)
       (missing_val : Option V)
       (default_val : Option V)
       (metadata : List (String × V))

/-- The `schema` entry of a produced field dict. -/
def FieldDict.schemaDoc : FieldDict V → Option (List (String × FieldDict V))
  | .mk _ s _ _ _ _ => s

/-- `make_schema_dict` (lines 143-170): one `field_dict` per schema field,
keyed by `data_key or field_name`, recursing into a field's nested schema only
while `current_depth < max_depth`.  The recursion is well-founded by the
measure `max_depth - current_depth`, which is how the code terminates on
cyclically nested schema definitions. -/
def make_schema_dict (env : SchemaEnv V) (schema : SmoresSchema V) (is_input : Bool)
    (current_depth max_depth : Nat) : List (String × FieldDict V) :=
  schema.fields.map (fun fe =>
    let field := fe.2
    let field_key := field.data_key.getD fe.1
    let nestedDoc : Option (List (String × FieldDict V)) :=
      match field.nested with
      | none => none
      | some nested_name =>
          if hlt : current_depth < max_depth then
            some (make_schema_dict env (env nested_name) is_input (current_depth + 1) max_depth)
          else none
    (field_key,
      FieldDict.mk field.field_type nestedDoc
        (if is_input then some field.required else none)
        field.missing_val field.default_val field.metadata))
termination_by max_depth - current_depth
decreasing_by omega

/-- The documentation tree has nested `schema` entries at most `n` levels
deep: with budget `0` no entry carries a `schema` key at all. -/
def BoundedNest : Nat → List (String × FieldDict V) → Prop
  | 0, l => ∀ e ∈ l, (e.2).schemaDoc = none
  | n + 1, l => ∀ e ∈ l, ∀ sub, (e.2).schemaDoc = some sub → BoundedNest n sub

theorem boundedNest_make_schema_dict (env : SchemaEnv V) (is_input : Bool) :
    ∀ (n : Nat) (schema : SmoresSchema V) (current_depth max_depth : Nat),
      max_depth - current_depth = n →
      BoundedNest n (make_schema_dict env schema is_input current_depth max_depth) := by
  intro n
  induction n with
  | zero =>
      intro schema c m hn e he
      rw [make_schema_dict] at he
      simp only [List.mem_map] at he
      obtain ⟨fe, _, rfl⟩ := he
      show (match fe.2.nested with
        | none => none
        | some nested_name =>
            if _ : c < m then
              some (make_schema_dict env (env nested_name) is_input (c + 1) m)
            else none) = none
      cases fe.2.nested with
      | none => rfl
      | some nested_name =>
          have hcm : ¬ c < m := by omega
          simp [hcm]
  | succ n ih =>
      intro schema c m hn e he sub hsub
      rw [make_schema_dict] at he
      simp only [List.mem_map] at he
      obtain ⟨fe, _, rfl⟩ := he
      revert hsub
      show (FieldDict.schemaDoc _) = some sub → BoundedNest n sub
      cases hfn : fe.2.nested with
      | none =>
          intro hsub
          simp [FieldDict.schemaDoc, hfn] at hsub
      | some nested_name =>
          intro hsub
          have hcm : c < m := by omega
          simp only [FieldDict.schemaDoc, hfn, dif_pos hcm, Option.some.injEq] at hsub
          subst hsub
          exact ih (env nested_name) (c + 1) m (by omega)

/-- C3: `make_schema_dict` is total on every schema environment — including
self- or mutually nested schema definitions — because it recurses only while
`current_depth < max_depth`; the produced documentation tree has `schema`
entries nested at most `max_depth - current_depth` levels deep, and once
`current_depth` reaches `max_depth` no field contributes a `schema` entry. -/
theorem C3_make_schema_dict_depth_bounded (env : SchemaEnv V) (schema : SmoresSchema V)
    (is_input : Bool) (current_depth max_depth : Nat) :
    BoundedNest (max_depth - current_depth)
      (make_schema_dict env schema is_input current_depth max_depth) ∧
    (max_depth ≤ current_depth →
      ∀ e ∈ make_schema_dict env schema is_input current_depth max_depth,
        (e.2).schemaDoc = none) := by
  refine ⟨boundedNest_make_schema_dict env is_input _ schema current_depth max_depth rfl, ?_⟩
  intro hle
  have h0 : max_depth - current_depth = 0 := by omega
  have h := boundedNest_make_schema_dict env is_input 0 schema current_depth max_depth h0
  exact h

/-- A self-nested schema definition: schema `Self` has a field nested at
schema `Self` again, so the schema tree is infinitely deep. -/
def c3Env : SchemaEnv String := fun _ =>
  { fields := [("child",
      { data_key := none, field_type := "Nested", nested := some "Self", required := true
        missing_val := none, default_val := none, metadata := [] })]
    smores_example := none }

theorem C3_make_schema_dict_depth_bounded_witness :
    BoundedNest 0 (make_schema_dict c3Env (c3Env "Self") true 5 5) ∧
    (FieldDict.mk "Nested" (none : Option (List (String × FieldDict String)))
        (some true) none none []).schemaDoc = none := by
  have h := C3_make_schema_dict_depth_bounded c3Env (c3Env "Self") true 5 5
  refine ⟨h.1, ?_⟩
  exact h.2 (le_refl 5)
    ("child", FieldDict.mk "Nested" none (some true) none none [])
    (by simp [make_schema_dict, c3Env])

end SchemaDocs

/-! ## `Smores.init_app` (flask_smores.py lines 17-57) -/

section InitApp

variable {V : Type}
variable {A : Type}

/-- Plain (case-sensitive) Python-dict lookup on an association list. -/
def alistLookup : List (String × A) → String → Option A
  | [], _ => none
  | e :: rest, k => if e.1 = k then some e.2 else alistLookup rest k

/-- Plain Python-dict assignment on an association list: replace in place or
append. -/
def alistSet : List (String × A) → String → A → List (String × A)
  | [], k, v => [(k, v)]
  | e :: rest, k, v => if e.1 = k then (k, v) :: rest else e :: alistSet rest k v

theorem alistLookup_append (l₁ l₂ : List (String × A)) (k : String) :
    alistLookup (l₁ ++ l₂) k = firstSome (alistLookup l₁ k) (alistLookup l₂ k) := by
  induction l₁ with
  | nil => simp [alistLookup]
  | cons e rest ih =>
      by_cases h : e.1 = k
      · simp [alistLookup, h]
      · simp [alistLookup, h, ih]

theorem alistLookup_alistSet (l : List (String × A)) (k : String) (v : A) (k' : String) :
    alistLookup (alistSet l k v) k' = if k' = k then some v else alistLookup l k' := by
  induction l with
  | nil =>
      by_cases h : k' = k
      · simp [alistSet, alistLookup, h]
      · simp [alistSet, alistLookup, h, Ne.symm h]
  | cons e rest ih =>
      by_cases he : e.1 = k
      · subst he
        by_cases h : k' = e.1
        · simp [alistSet, alistLookup, h]
        · simp [alistSet, alistLookup, h, Ne.symm h]
      · simp only [alistSet, if_neg he]
        by_cases h : e.1 = k'
        · subst h
          simp [alistLookup, he]
        · simp [alistLookup, h, ih]

/-- A Flask config value, as far as the extension reads one. -/
inductive ConfigVal where
  | bool (b : Bool)
  | str (s : String)
  | nat (n : Nat)
deriving Repr, DecidableEq

/-- Python truthiness of a config value. -/
def ConfigVal.truthy : ConfigVal → Bool
  | .bool b => b
  | .str s => s != ""
  | .nat n => n != 0

/-- `dict.get` on the app config. -/
def configGet (cfg : List (String × ConfigVal)) (k : String) : Option ConfigVal :=
  alistLookup cfg k

/-- `dict.setdefault`: insert the default only when the key is absent. -/
def configSetdefault (cfg : List (String × ConfigVal)) (k : String) (v : ConfigVal) :
    List (String × ConfigVal) :=
  if (configGet cfg k).isSome then cfg else cfg ++ [(k, v)]

/-- Read a string config entry, with a fallback for an absent or non-string
value. -/
def configStr (cfg : List (String × ConfigVal)) (k dflt : String) : String :=
  match configGet cfg k with
  | some (.str s) => s
  | _ => dflt

/-- Read a numeric config entry, with a fallback for an absent or non-numeric
value. -/
def configNat (cfg : List (String × ConfigVal)) (k : String) (dflt : Nat) : Nat :=
  match configGet cfg k with
  | some (.nat n) => n
  | _ => dflt

/-- A registered route of `app.url_map.iter_rules()`. -/
structure UrlRule where
  rule : String
  endpoint : String
  methods : List String
deriving Repr, DecidableEq

/-- A registered view function with the attributes `init_app` reads: the
`_uses_smores` mark, the docstring, and the attached input/output schemas
(as names into the schema environment). -/
structure AppViewFunc where
  _uses_smores : Bool
  docstring : Option String
  _input_schema : Option String
  _output_schema : Option String
deriving Repr, DecidableEq

/-- The Flask app as `init_app` sees it. -/
structure FlaskApp (V : Type) where
  config : List (String × ConfigVal)
  url_rules : List UrlRule
  view_functions : String → AppViewFunc
  schema_env : SchemaEnv V

/-- `' '.join(x.strip() for x in docstring.strip().split('\n'))` (line 45). -/
def strip_docstring (s : String) : String :=
  String.intercalate " " ((s.trim.splitOn "\n").map (fun x => x.trim))

/-- A `doc_dict` built for one documented route (lines 43-52). -/
structure DocDict (V : Type) where
  description : Option String
  inputs : Option (List (String × FieldDict V))
  example_entry : Option V
  outputs : Option (List (String × FieldDict V))

/-- Build the `doc_dict` of a documented view function (lines 43-52):
the stripped docstring when the docstring is truthy, the input schema's
documentation tree and its `smores_example` when an input schema is attached,
and the output schema's documentation tree when one is attached. -/
def mk_doc_dict (env : SchemaEnv V) (depth : Nat) (vf : AppViewFunc) : DocDict V :=
  { description :=
      match vf.docstring with
      | some d => if d = "" then none else some (strip_docstring d)
      | none => none
    inputs := vf._input_schema.map (fun n => make_schema_dict env (env n) true 0 depth)
    example_entry :=
      match vf._input_schema with
      | some n => (env n).smores_example
      | none => none
    outputs := vf._output_schema.map (fun n => make_schema_dict env (env n) false 0 depth) }

/-- `possible_methods` (line 38). -/
def possible_methods : List String := ["GET", "POST", "PUT", "PATCH", "DELETE"]

/-- The documentation map: URL rule string, then HTTP method, then the
route's `doc_dict`. -/
abbrev ApiDocs (V : Type) := List (String × List (String × DocDict V))

/-- `app._api_docs[rule.rule][method] = doc_dict` with the `KeyError`
fallback `app._api_docs[rule.rule] = {method: doc_dict}` (lines 53-57). -/
def docInsert (docs : ApiDocs V) (rule method : String) (dd : DocDict V) : ApiDocs V :=
  match alistLookup docs rule with
  | some inner => alistSet docs rule (alistSet inner method dd)
  | none => docs ++ [(rule, [(method, dd)])]

/-- Lookup in the documentation map by rule and method. -/
def docLookup (docs : ApiDocs V) (rule method : String) : Option (DocDict V) :=
  (alistLookup docs rule).bind (fun inner => alistLookup inner method)

/-- The body of the `for rule in app.url_map.iter_rules()` loop
(lines 39-57): routes whose view function is not marked are skipped;
for a marked one, the `doc_dict` is stored under the rule for every
registered method among `possible_methods`. -/
def cacheStep (app : FlaskApp V) (depth : Nat) (docs : ApiDocs V) (rule : UrlRule) :
    ApiDocs V :=
  let view_func := app.view_functions rule.endpoint
  if view_func._uses_smores then
    let methods := possible_methods.filter (fun m => decide (m ∈ rule.methods))
    let doc_dict := mk_doc_dict app.schema_env depth view_func
    methods.foldl (fun docs m => docInsert docs rule.rule m doc_dict) docs
  else docs

/-- `cache_api_docs` (lines 36-57): `app._api_docs = {}` then the loop over
all registered routes. -/
def cache_api_docs (app : FlaskApp V) (depth : Nat) : ApiDocs V :=
  app.url_rules.foldl (cacheStep app depth) []

/-- What `init_app` leaves behind: the config after the `setdefault` calls,
the URL rules it registered (rule string and endpoint name), and the cached
documentation map that the registered `api_docs` view serves (absent when
`SMORES_CACHE_API_DOCS` is falsy, in which case no docs view is registered
either). -/
structure InitResult (V : Type) where
  config : List (String × ConfigVal)
  added_url_rules : List (String × String)
  api_docs : Option (ApiDocs V)

/-- The three `config.setdefault` calls of `init_app` (lines 24-26). -/
def initConfig (app : FlaskApp V) : List (String × ConfigVal) :=
  configSetdefault (configSetdefault (configSetdefault app.config
    "SMORES_CACHE_API_DOCS" (ConfigVal.bool true))
    "SMORES_API_DOCS_RULE" (ConfigVal.str "/api_docs"))
    "SMORES_RECURSION_DEPTH" (ConfigVal.nat 5)

/-- `Smores.init_app` (lines 23-57): set the three config defaults; when
`SMORES_CACHE_API_DOCS` is truthy, register the docs view at
`SMORES_API_DOCS_RULE` and cache the documentation map with the configured
recursion depth. -/
def init_app (app : FlaskApp V) : InitResult V :=
  let cfg := initConfig app
  if ((configGet cfg "SMORES_CACHE_API_DOCS").map ConfigVal.truthy).getD false then
    { config := cfg
      added_url_rules := [(configStr cfg "SMORES_API_DOCS_RULE" "/api_docs", "smores_api_docs")]
      api_docs := some (cache_api_docs app (configNat cfg "SMORES_RECURSION_DEPTH" 5)) }
  else
    { config := cfg, added_url_rules := [], api_docs := none }

theorem docLookup_docInsert (docs : ApiDocs V) (r m : String) (dd : DocDict V)
    (r' m' : String) :
    docLookup (docInsert docs r m dd) r' m' =
      if r' = r ∧ m' = m then some dd else docLookup docs r' m' := by
  unfold docInsert
  cases hin : alistLookup docs r with
  | some inner =>
      by_cases hr : r' = r
      · subst hr
        by_cases hm : m' = m
        · simp [docLookup, alistLookup_alistSet, hin, hm]
        · simp [docLookup, alistLookup_alistSet, hin, hm]
      · simp [docLookup, alistLookup_alistSet, hr]
  | none =>
      by_cases hr : r' = r
      · subst hr
        by_cases hm : m' = m
        · simp [docLookup, alistLookup_append, hin, alistLookup, hm]
        · simp [docLookup, alistLookup_append, hin, alistLookup, hm, Ne.symm hm]
      · simp [docLookup, alistLookup_append, hr, alistLookup, Ne.symm hr]

theorem docLookup_foldl_docInsert (methods : List String) (docs : ApiDocs V)
    (rrule : String) (dd : DocDict V) (r' m' : String) :
    docLookup (methods.foldl (fun d m => docInsert d rrule m dd) docs) r' m' =
      if r' = rrule ∧ m' ∈ methods then some dd else docLookup docs r' m' := by
  induction methods generalizing docs with
  | nil => simp
  | cons m rest ih =>
      rw [List.foldl_cons, ih, docLookup_docInsert]
      by_cases h1 : r' = rrule
      · by_cases h2 : m' ∈ rest
        · simp [h1, h2]
        · by_cases h3 : m' = m
          · simp [h1, h2, h3]
          · simp [h1, h2, h3]
      · simp [h1]

/-- Route `rule` produces an entry at rule string `r` and method `m`. -/
def MarkedRoute (app : FlaskApp V) (rule : UrlRule) (r m : String) : Prop :=
  r = rule.rule ∧ m ∈ possible_methods ∧ m ∈ rule.methods ∧
    (app.view_functions rule.endpoint)._uses_smores = true

instance (app : FlaskApp V) (rule : UrlRule) (r m : String) :
    Decidable (MarkedRoute app rule r m) := by
  unfold MarkedRoute
  infer_instance

theorem docLookup_cacheStep (app : FlaskApp V) (depth : Nat) (docs : ApiDocs V)
    (rule : UrlRule) (r m : String) :
    docLookup (cacheStep app depth docs rule) r m =
      if MarkedRoute app rule r m
      then some (mk_doc_dict app.schema_env depth (app.view_functions rule.endpoint))
      else docLookup docs r m := by
  unfold cacheStep MarkedRoute
  by_cases hu : (app.view_functions rule.endpoint)._uses_smores = true
  · simp only [hu, if_true]
    rw [docLookup_foldl_docInsert]
    by_cases h1 : r = rule.rule
    · by_cases h2 : m ∈ possible_methods
      · by_cases h3 : m ∈ rule.methods
        · simp [h1, h2, h3, hu, List.mem_filter]
        · simp [h1, h2, h3, hu, List.mem_filter]
      · simp [h1, h2, hu, List.mem_filter]
    · simp [h1, hu]
  · simp only [Bool.not_eq_true] at hu
    simp [hu]

theorem docLookup_cacheStep_isSome_mono (app : FlaskApp V) (depth : Nat)
    (docs : ApiDocs V) (rule : UrlRule) (r m : String)
    (h : (docLookup docs r m).isSome = true) :
    (docLookup (cacheStep app depth docs rule) r m).isSome = true := by
  rw [docLookup_cacheStep]
  by_cases hM : MarkedRoute app rule r m
  · rw [if_pos hM]; rfl
  · rwa [if_neg hM]

theorem docLookup_cacheFold_isSome (app : FlaskApp V) (depth : Nat)
    (rules : List UrlRule) (docs : ApiDocs V) (r m : String) :
    (docLookup (rules.foldl (cacheStep app depth) docs) r m).isSome = true ↔
      (∃ rule ∈ rules, MarkedRoute app rule r m) ∨
        (docLookup docs r m).isSome = true := by
  induction rules generalizing docs with
  | nil => simp
  | cons rule rest ih =>
      rw [List.foldl_cons, ih]
      constructor
      · rintro (⟨rule', hmem, hM⟩ | h)
        · exact Or.inl ⟨rule', List.mem_cons_of_mem _ hmem, hM⟩
        · rw [docLookup_cacheStep] at h
          by_cases hM : MarkedRoute app rule r m
          · exact Or.inl ⟨rule, List.mem_cons_self _ _, hM⟩
          · rw [if_neg hM] at h
            exact Or.inr h
      · rintro (⟨rule', hmem, hM⟩ | h)
        · rcases List.mem_cons.mp hmem with heq | hmem'
          · subst heq
            refine Or.inr ?_
            rw [docLookup_cacheStep, if_pos hM]
            rfl
          · exact Or.inl ⟨rule', hmem', hM⟩
        · exact Or.inr (docLookup_cacheStep_isSome_mono app depth docs rule r m h)

theorem docLookup_cacheFold_value (app : FlaskApp V) (depth : Nat)
    (rules : List UrlRule) (docs : ApiDocs V) (r m : String) (dd : DocDict V) :
    docLookup (rules.foldl (cacheStep app depth) docs) r m = some dd →
      (∃ rule ∈ rules, MarkedRoute app rule r m ∧
        dd = mk_doc_dict app.schema_env depth (app.view_functions rule.endpoint)) ∨
      docLookup docs r m = some dd := by
  induction rules generalizing docs with
  | nil => exact fun h => Or.inr h
  | cons rule rest ih =>
      intro h
      rw [List.foldl_cons] at h
      rcases ih _ h with ⟨rule', hmem, hM, hdd⟩ | h'
      · exact Or.inl ⟨rule', List.mem_cons_of_mem _ hmem, hM, hdd⟩
      · rw [docLookup_cacheStep] at h'
        by_cases hM : MarkedRoute app rule r m
        · rw [if_pos hM] at h'
          exact Or.inl ⟨rule, List.mem_cons_self _ _, hM, (Option.some.inj h').symm⟩
        · rw [if_neg hM] at h'
          exact Or.inr h'

theorem configGet_setdefault_other (cfg : List (String × ConfigVal)) (k : String)
    (v : ConfigVal) (k' : String) (h : k' ≠ k) :
    configGet (configSetdefault cfg k v) k' = configGet cfg k' := by
  unfold configSetdefault
  by_cases hs : (configGet cfg k).isSome = true
  · rw [if_pos hs]
  · rw [if_neg hs]
    show alistLookup (cfg ++ [(k, v)]) k' = alistLookup cfg k'
    rw [alistLookup_append]
    have : alistLookup ([(k, v)] : List (String × ConfigVal)) k' = none := by
      simp [alistLookup, Ne.symm h]
    rw [this]
    cases alistLookup cfg k' <;> rfl

theorem configGet_setdefault_absent (cfg : List (String × ConfigVal)) (k : String)
    (v : ConfigVal) (h : configGet cfg k = none) :
    configGet (configSetdefault cfg k v) k = some v := by
  unfold configSetdefault
  rw [h]
  show alistLookup (cfg ++ [(k, v)]) k = some v
  rw [alistLookup_append]
  show firstSome (configGet cfg k) _ = _
  rw [h]
  simp [alistLookup]

theorem init_app_config (app : FlaskApp V) : (init_app app).config = initConfig app := by
  simp only [init_app]
  split <;> rfl

theorem init_app_api_docs_some (app : FlaskApp V) (docs : ApiDocs V)
    (h : (init_app app).api_docs = some docs) :
    docs = cache_api_docs app (configNat (initConfig app) "SMORES_RECURSION_DEPTH" 5) ∧
    (init_app app).added_url_rules =
      [(configStr (initConfig app) "SMORES_API_DOCS_RULE" "/api_docs", "smores_api_docs")] := by
  simp only [init_app] at h ⊢
  split at h
  · rename_i hcond
    simp only [hcond, if_true]
    exact ⟨(Option.some.inj h).symm, trivial⟩
  · exact absurd h (by simp)

@[simp] theorem docLookup_nil (r m : String) :
    docLookup ([] : ApiDocs V) r m = none := rfl

/-- C4: the cached documentation map built at startup has an entry for rule
string `r` and method `m` exactly when some registered route has that rule
string, registers `m` among GET/POST/PUT/PATCH/DELETE, and has a view
function marked by the decorators (`_uses_smores`); the stored entry is the
`doc_dict` carrying the schema metadata the decorators attached; and the map
is served at the configured `SMORES_API_DOCS_RULE`, which defaults to
`/api_docs` when the app did not configure it. -/
theorem C4_api_docs_characterization (app : FlaskApp V) (docs : ApiDocs V)
    (h : (init_app app).api_docs = some docs) :
    (∀ r m, (docLookup docs r m).isSome = true ↔
      ∃ rule ∈ app.url_rules, MarkedRoute app rule r m) ∧
    (∀ r m dd, docLookup docs r m = some dd →
      ∃ rule ∈ app.url_rules, MarkedRoute app rule r m ∧
        dd = mk_doc_dict app.schema_env
          (configNat (init_app app).config "SMORES_RECURSION_DEPTH" 5)
          (app.view_functions rule.endpoint)) ∧
    (init_app app).added_url_rules =
      [(configStr (init_app app).config "SMORES_API_DOCS_RULE" "/api_docs",
        "smores_api_docs")] ∧
    (configGet app.config "SMORES_API_DOCS_RULE" = none →
      configStr (init_app app).config "SMORES_API_DOCS_RULE" "/api_docs" = "/api_docs") := by
  obtain ⟨hdocs, hrules⟩ := init_app_api_docs_some app docs h
  subst hdocs
  refine ⟨?_, ?_, ?_, ?_⟩
  · intro r m
    rw [cache_api_docs, docLookup_cacheFold_isSome]
    simp
  · intro r m dd hmem
    rw [cache_api_docs] at hmem
    rcases docLookup_cacheFold_value app _ app.url_rules [] r m dd hmem with hex | hbad
    · rw [init_app_config]
      exact hex
    · simp at hbad
  · rw [init_app_config]
    exact hrules
  · intro habs
    rw [init_app_config]
    unfold initConfig configStr
    rw [configGet_setdefault_other _ _ _ _ (by decide),
      configGet_setdefault_absent _ _ _ (by rwa [configGet_setdefault_other _ _ _ _ (by decide)])]

/-- A concrete app for the witness: one registered route with a marked view
function and methods `GET`, `POST` and `HEAD`. -/
def c4App : FlaskApp String :=
  { config := []
    url_rules := [{ rule := "/store", endpoint := "stores", methods := ["HEAD", "GET", "POST"] }]
    view_functions := fun _ =>
      { _uses_smores := true, docstring := none, _input_schema := none, _output_schema := none }
    schema_env := fun _ => { fields := [], smores_example := none } }

/-- The documentation map `init_app` caches for `c4App`. -/
def c4Docs : ApiDocs String :=
  [("/store", [("GET", ⟨none, none, none, none⟩), ("POST", ⟨none, none, none, none⟩)])]

theorem C4_api_docs_characterization_witness :
    (docLookup c4Docs "/store" "GET").isSome = true ∧
    (docLookup c4Docs "/store" "HEAD").isSome = false ∧
    (init_app c4App).added_url_rules = [("/api_docs", "smores_api_docs")] := by
  have h := C4_api_docs_characterization c4App c4Docs rfl
  refine ⟨?_, ?_, ?_⟩
  · exact (h.1 "/store" "GET").mpr
      ⟨{ rule := "/store", endpoint := "stores", methods := ["HEAD", "GET", "POST"] },
        by simp [c4App], rfl, by decide, by decide, rfl⟩
  · by_contra hc
    simp only [Bool.not_eq_false] at hc
    rcases (h.1 "/store" "HEAD").mp hc with ⟨rule, hmem, hM⟩
    have : rule = { rule := "/store", endpoint := "stores", methods := ["HEAD", "GET", "POST"] } := by
      simpa [c4App] using hmem
    subst this
    exact absurd hM.2.1 (by decide)
  · rw [h.2.2.1, h.2.2.2 rfl]

end InitApp

end FlaskSmores

/-! ## `resources/store.py`

The `Store` / `StoreList` `MethodView` handlers over an explicit session
model: the session carries the committed rows and its pending state
(`session.add`-ed inserts, `session.delete`-ed deletions).  Whether a commit
succeeds is decided by a `CommitOracle`, standing for the constraint checks
of the database backend. -/

namespace StoreResource

open FlaskSmores

variable {V : Type}

/-- A `StoreModel` row: primary key and payload. -/
structure StoreRec (V : Type) where
  id : Nat
  data : V
deriving Repr, DecidableEq

/-- The database session: committed rows plus the pending state. -/
structure DbSession (V : Type) where
  committed : List (StoreRec V)
  new : List (StoreRec V)
  deleted : List (StoreRec V)
deriving Repr, DecidableEq

/-- How `db.session.commit()` ends. -/
inductive CommitOutcome where
  | ok
  | integrityError
  | otherSqlaError
deriving Repr, DecidableEq

/-- The backend's verdict on committing a session. -/
def CommitOracle (V : Type) := DbSession V → CommitOutcome

/-- The exceptions `commit` can raise, as the handlers distinguish them. -/
inductive DbError where
  | integrityError
  | sqlaError
deriving Repr, DecidableEq

/-- Apply the pending inserts and deletions to the committed rows. -/
def applyPending (s : DbSession V) : List (StoreRec V) :=
  (s.committed.filter (fun r => s.deleted.all (fun d => d.id != r.id))) ++ s.new

/-- `db.session.commit()`: on success the pending state is applied and
cleared; on failure the exception propagates and nothing is persisted — the
session keeps its pending state (no implicit rollback). -/
def commit (oracle : CommitOracle V) (s : DbSession V) :
    Except DbError (DbSession V) :=
  match oracle s with
  | .ok => .ok { committed := applyPending s, new := [], deleted := [] }
  | .integrityError => .error .integrityError
  | .otherSqlaError => .error .sqlaError

/-- What a handler returns. -/
inductive HandlerResult (V : Type) where
  | okStore (store : StoreRec V)
  | okMessage (message : String)
  | aborted (status : Nat) (message : String)
  | raised (e : DbError)
deriving Repr, DecidableEq

/-- `StoreModel.query.get_or_404(store_id)`: primary-key lookup among the
committed rows; `none` stands for the 404 abort. -/
def get_or_404 (s : DbSession V) (store_id : Nat) : Option (StoreRec V) :=
  s.committed.find? (fun r => r.id == store_id)

/-- `Store.get` (store.py lines 17-20). -/
def Store_get (s : DbSession V) (store_id : Nat) : HandlerResult V × DbSession V :=
  match get_or_404 s store_id with
  | none => (.aborted 404 "Not Found", s)
  | some store => (.okStore store, s)

/-- `Store.delete` (store.py lines 22-26): `get_or_404`, `session.delete`,
`commit`, then `{"message": "Store deleted"}`.  This handler has no
try/except, so a commit failure propagates uncaught. -/
def Store_delete (oracle : CommitOracle V) (s : DbSession V) (store_id : Nat) :
    HandlerResult V × DbSession V :=
  match get_or_404 s store_id with
  | none => (.aborted 404 "Not Found", s)
  | some store =>
      let s1 := { s with deleted := s.deleted ++ [store] }
      match commit oracle s1 with
      | .ok s2 => (.okMessage "Store deleted", s2)
      | .error e => (.raised e, s1)

/-- `StoreList.post` (store.py lines 34-49): build the store, `session.add`,
`commit`; an `IntegrityError` aborts with 400, any other `SQLAlchemyError`
with 500.  The handler calls no `session.rollback()`, so on failure the
session keeps the pending insert. -/
def StoreList_post (oracle : CommitOracle V) (s : DbSession V) (store_data : V)
    (new_id : Nat) : HandlerResult V × DbSession V :=
  let store : StoreRec V := { id := new_id, data := store_data }
  let s1 := { s with new := s.new ++ [store] }
  match commit oracle s1 with
  | .ok s2 => (.okStore store, s2)
  | .error .integrityError => (.aborted 400 "A store with that name alreday exist", s1)
  | .error .sqlaError => (.aborted 500 "Error occured while inserting item", s1)

def c5Oracle : CommitOracle String := fun _ => CommitOutcome.integrityError

def c5Session : DbSession String := { committed := [], new := [], deleted := [] }

/-- C5 counterexample: on a failing commit the handler aborts with 400 but
performs no rollback — the pending insert is still in the session after the
request, contradicting the claim that the session's pending state is rolled
back. -/
theorem C5_counterexample_no_rollback :
    (StoreList_post c5Oracle c5Session "lidl" 1).1 =
      HandlerResult.aborted 400 "A store with that name alreday exist" ∧
    (StoreList_post c5Oracle c5Session "lidl" 1).2.new = [{ id := 1, data := "lidl" }] ∧
    (StoreList_post c5Oracle c5Session "lidl" 1).2.new ≠ [] := by
  refine ⟨by decide, by decide, by decide⟩

/-- C5 (amended): for every POST /store whose commit fails, the request is
aborted with 400 on `IntegrityError` and 500 on any other `SQLAlchemyError`,
and the committed stored data is unchanged by the failed request (a failed
commit persists nothing); the handler performs no rollback, so the new store
remains pending in the session. -/
theorem C5_post_commit_failure_aborts (oracle : CommitOracle V) (s : DbSession V)
    (store_data : V) (new_id : Nat) :
    (oracle { s with new := s.new ++ [{ id := new_id, data := store_data }] } =
        CommitOutcome.integrityError →
      StoreList_post oracle s store_data new_id =
        (HandlerResult.aborted 400 "A store with that name alreday exist",
          { s with new := s.new ++ [{ id := new_id, data := store_data }] })) ∧
    (oracle { s with new := s.new ++ [{ id := new_id, data := store_data }] } =
        CommitOutcome.otherSqlaError →
      StoreList_post oracle s store_data new_id =
        (HandlerResult.aborted 500 "Error occured while inserting item",
          { s with new := s.new ++ [{ id := new_id, data := store_data }] })) ∧
    ({ s with new := s.new ++ [{ id := new_id, data := store_data }]} : DbSession V).committed
      = s.committed := by
  refine ⟨?_, ?_, rfl⟩
  · intro h
    simp only [StoreList_post, commit, h]
  · intro h
    simp only [StoreList_post, commit, h]

theorem C5_post_commit_failure_aborts_witness :
    StoreList_post c5Oracle c5Session "lidl" 1 =
      (HandlerResult.aborted 400 "A store with that name alreday exist",
        { committed := [], new := [{ id := 1, data := "lidl" }], deleted := [] }) :=
  (C5_post_commit_failure_aborts c5Oracle c5Session "lidl" 1).1 rfl

/-- C10: `GET /store/<id>` and `DELETE /store/<id>` abort with 404 and leave
the session untouched when no store has the id; deleting an existing store
removes exactly the stores with that id from the committed rows, commits, and
returns the message `Store deleted`. -/
theorem C10_store_get_delete_404 (oracle : CommitOracle V) (s : DbSession V)
    (store_id : Nat) :
    (get_or_404 s store_id = none →
      Store_get s store_id = (HandlerResult.aborted 404 "Not Found", s) ∧
      Store_delete oracle s store_id = (HandlerResult.aborted 404 "Not Found", s)) ∧
    (∀ store, get_or_404 s store_id = some store →
      s.new = [] → s.deleted = [] →
      oracle { s with deleted := [store] } = CommitOutcome.ok →
      Store_delete oracle s store_id =
        (HandlerResult.okMessage "Store deleted",
          { committed := s.committed.filter (fun r => store_id != r.id), new := []
            deleted := [] })) := by
  constructor
  · intro h
    constructor
    · simp only [Store_get, h]
    · simp only [Store_delete, h]
  · intro store hfind hnew hdel hok
    have hid : store.id = store_id := by
      have hp := List.find?_some hfind
      simpa using hp
    simp only [hnew] at hok
    simp only [Store_delete, hfind, hdel, List.nil_append, commit, hok, applyPending, hnew,
      List.append_nil, List.all_cons, List.all_nil, Bool.and_true, hid]

def c10Oracle : CommitOracle String := fun _ => CommitOutcome.ok

def c10Session : DbSession String :=
  { committed := [{ id := 7, data := "store7" }, { id := 8, data := "store8" }]
    new := [], deleted := [] }

theorem C10_store_get_delete_404_witness :
    Store_get c10Session 9 = (HandlerResult.aborted 404 "Not Found", c10Session) ∧
    Store_delete c10Oracle c10Session 9 =
      (HandlerResult.aborted 404 "Not Found", c10Session) ∧
    Store_delete c10Oracle c10Session 7 =
      (HandlerResult.okMessage "Store deleted",
        { committed := [{ id := 8, data := "store8" }], new := [], deleted := [] }) := by
  have h := C10_store_get_delete_404 c10Oracle c10Session 9
  have h7 := C10_store_get_delete_404 c10Oracle c10Session 7
  refine ⟨(h.1 (by decide)).1, (h.1 (by decide)).2, ?_⟩
  have := h7.2 { id := 7, data := "store7" } (by decide) rfl rfl (by decide)
  rw [this]
  decide

end StoreResource
